import Mathlib

/-!
Verification of the name-to-identifier resolution and compartment-walk logic
of an OCI command-line client. The remote listing API is modelled as explicit
data passed to each function; each embedded operation additionally returns the
number of listing requests it issued, so that claims about network calls can
be stated. Machine strings are Lean strings; Go prefix tests and trimming are
rendered over the underlying character lists so they evaluate in the kernel.
-/

namespace OciCli

/-- Compartment record as used by resolveCompartmentID and the compartment
walk: the source dereferences Id and Name unconditionally, so both are plain
strings. -/
structure Compartment where
  id : String
  name : String
deriving DecidableEq, Repr

/-- Image record as used by resolveImageNameToID: only the Id field is read
from each item. -/
structure Image where
  id : String
deriving DecidableEq, Repr

/-- Shape record as used by resolveShapeNameToID: the source checks
shape.Shape != nil before dereferencing, so the name is optional. -/
structure Shape where
  shape : Option String
deriving DecidableEq, Repr

/-- Errors produced by the resolver functions: a name that matched nothing,
or a failed listing request propagated from the SDK call. -/
inductive ResolveErr where
  | notFound (name : String)
  | callFailed (msg : String)
deriving DecidableEq, Repr

/-- Go strings.HasPrefix, rendered over character lists. -/
def goHasPrefix (pre s : String) : Bool :=
  pre.data.isPrefixOf s.data

/-- Literal-identifier test of resolveCompartmentID (source line 576): the
input is accepted verbatim exactly when it starts with
ocid1.compartment.oc1. or ocid1.tenancy.oc1. -/
def isLiteralCompartmentID (input : String) : Bool :=
  goHasPrefix "ocid1.compartment.oc1." input || goHasPrefix "ocid1.tenancy.oc1." input

/-- First page of a paged listing: the page a request with no page token
receives. -/
def firstPage (pages : List (List Compartment)) : List Compartment :=
  pages.headD []

/-- Embedding of resolveCompartmentID (source lines 573-606). The listing
argument models the outcome of the single ListCompartments request against
the tenancy root: either a call failure or the server's full paged listing.
The source sets no page token and ignores OpcNextPage, so only the first
page's Items are scanned; the loop returns the Id of the first item whose
Name equals the input. The second component counts listing requests issued. -/
def resolveCompartmentID (input : String)
    (listing : Except String (List (List Compartment))) :
    Except ResolveErr String × Nat :=
  if isLiteralCompartmentID input then
    (Except.ok input, 0)
  else
    match listing with
    | Except.error e => (Except.error (ResolveErr.callFailed e), 1)
    | Except.ok pages =>
      match (firstPage pages).find? (fun c => c.name == input) with
      | some c => (Except.ok c.id, 1)
      | none => (Except.error (ResolveErr.notFound input), 1)

/-- Embedding of resolveImageNameToID (source lines 655-689). The listImages
argument maps a queried compartment identifier to the display-name-filtered
listing the server returns for the fixed image name (the filter is applied
server-side via the request's DisplayName field). The primary query targets
the given compartment; on an empty result the same query is repeated against
the tenancy root, and only when both come back empty does the function fail
with the not-found error. The first item's Id is returned otherwise. The
second component counts listing requests issued. -/
def resolveImageNameToID (imageName compartmentID tenancyOCID : String)
    (listImages : String → Except String (List Image)) :
    Except ResolveErr String × Nat :=
  match listImages compartmentID with
  | Except.error e => (Except.error (ResolveErr.callFailed e), 1)
  | Except.ok [] =>
    (match listImages tenancyOCID with
     | Except.error e => (Except.error (ResolveErr.callFailed e), 2)
     | Except.ok [] => (Except.error (ResolveErr.notFound imageName), 2)
     | Except.ok (d :: _) => (Except.ok d.id, 2))
  | Except.ok (d :: _) => (Except.ok d.id, 1)

/-- Embedding of resolveShapeNameToID (source lines 693-713). The listShapes
argument maps the queried compartment and image identifiers to the
compatible-shape listing. The loop returns the input shape name itself on the
first item whose (non-nil) name equals it; otherwise the not-found error. -/
def resolveShapeNameToID (shapeName compartmentID imageID : String)
    (listShapes : String → String → Except String (List Shape)) :
    Except ResolveErr String × Nat :=
  match listShapes compartmentID imageID with
  | Except.error e => (Except.error (ResolveErr.callFailed e), 1)
  | Except.ok items =>
    match items.find? (fun s => s.shape == some shapeName) with
    | some _ => (Except.ok shapeName, 1)
    | none => (Except.error (ResolveErr.notFound shapeName), 1)

example :
    resolveCompartmentID "ocid1.compartment.oc1..aaa" (Except.error "down")
      = (Except.ok "ocid1.compartment.oc1..aaa", 0) := rfl

example :
    (resolveCompartmentID "dev"
      (Except.ok [[⟨"ocid1.compartment.oc1..x", "Dev"⟩]])).1
      = Except.error (ResolveErr.notFound "dev") := rfl

example :
    resolveImageNameToID "img" "c" "t"
      (fun q => if q == "t" then Except.ok [⟨"ocid1.image.oc1..i"⟩] else Except.ok [])
      = (Except.ok "ocid1.image.oc1..i", 2) := rfl

theorem find?_eq_filter_head {α : Type} (p : α → Bool) :
    ∀ l : List α, l.find? p = (l.filter p).head? := by
  intro l
  induction l with
  | nil => rfl
  | cons a l ih =>
    cases h : p a with
    | true => simp only [List.find?, List.filter, h, List.head?]
    | false =>
      simp only [List.find?, List.filter, h]
      exact ih

/-- C1 counterexample: an input in the provider's literal image-OCID format is
not returned unchanged by resolveImageNameToID, and the function issues two
listing requests rather than none — it performs no literal-identifier check
at all. -/
theorem c1_counterexample :
    resolveImageNameToID "ocid1.image.oc1.phx.literalinput"
        "ocid1.compartment.oc1..c" "ocid1.tenancy.oc1..t" (fun _ => Except.ok [])
      = (Except.error (ResolveErr.notFound "ocid1.image.oc1.phx.literalinput"), 2)
    ∧ ((Except.error (ResolveErr.notFound "ocid1.image.oc1.phx.literalinput"),
        2) : Except ResolveErr String × Nat)
      ≠ (Except.ok "ocid1.image.oc1.phx.literalinput", 0) :=
  ⟨rfl, fun h => by simpa using congrArg Prod.snd h⟩

/-- C1 amended: compartment resolution returns a literal-format input (prefix
ocid1.compartment.oc1. or ocid1.tenancy.oc1.) unchanged with zero listing
requests; image resolution performs no literal-format check and issues at
least one listing request on every input. -/
theorem c1_amended :
    (∀ (input : String) (listing : Except String (List (List Compartment))),
        isLiteralCompartmentID input = true →
        resolveCompartmentID input listing = (Except.ok input, 0))
    ∧ (∀ (imageName compartmentID tenancyOCID : String)
        (listImages : String → Except String (List Image)),
        1 ≤ (resolveImageNameToID imageName compartmentID tenancyOCID listImages).2) := by
  constructor
  · intro input listing h
    simp [resolveCompartmentID, h]
  · intro imageName compartmentID tenancyOCID listImages
    unfold resolveImageNameToID
    rcases listImages compartmentID with e | (_ | ⟨d, l⟩)
    · simp
    · rcases listImages tenancyOCID with e2 | (_ | ⟨d2, l2⟩) <;> simp
    · simp

/-- C1 amended witness at concrete inputs. -/
theorem c1_amended_witness :
    resolveCompartmentID "ocid1.tenancy.oc1..root" (Except.error "down")
      = (Except.ok "ocid1.tenancy.oc1..root", 0)
    ∧ 1 ≤ (resolveImageNameToID "img" "c" "t" (fun _ => Except.ok [])).2 :=
  ⟨c1_amended.1 "ocid1.tenancy.oc1..root" (Except.error "down") (by decide),
   c1_amended.2 "img" "c" "t" (fun _ => Except.ok [])⟩

/-- C2 counterexample: a compartment named net exists in the full paged
listing of the scope (on the second page), yet resolveCompartmentID returns
the not-found error, because the source scans only the first page of the
single listing request. -/
theorem c2_counterexample :
    (resolveCompartmentID "net"
        (Except.ok [[⟨"ocid1.compartment.oc1..a", "apps"⟩],
                    [⟨"ocid1.compartment.oc1..b", "net"⟩]])).1
      = Except.error (ResolveErr.notFound "net")
    ∧ ∃ c ∈ ([[⟨"ocid1.compartment.oc1..a", "apps"⟩],
              [⟨"ocid1.compartment.oc1..b", "net"⟩]] : List (List Compartment)).flatten,
        c.name = "net" :=
  ⟨rfl, by decide⟩

/-- C2 amended: for a non-literal input, resolveCompartmentID fails with the
not-found error exactly when no compartment on the first page of the single
listing response bears the input as its name; matches on later pages do not
prevent the error. -/
theorem c2_amended :
    ∀ (input : String) (pages : List (List Compartment)),
      isLiteralCompartmentID input = false →
      ((resolveCompartmentID input (Except.ok pages)).1
          = Except.error (ResolveErr.notFound input)
        ↔ ∀ c ∈ firstPage pages, ¬ c.name = input) := by
  intro input pages h
  unfold resolveCompartmentID
  simp only [h, Bool.false_eq_true, if_false]
  cases hfind : (firstPage pages).find? (fun c => c.name == input) with
  | some c =>
    have := List.find?_some hfind
    simp only [beq_iff_eq] at this
    have hmem := List.mem_of_find?_eq_some hfind
    simp only [hfind]
    constructor
    · intro habs
      exact absurd habs (by simp)
    · intro hall
      exact absurd this (hall c hmem)
  | none =>
    rw [List.find?_eq_none] at hfind
    simp only [beq_iff_eq] at hfind
    exact iff_of_true rfl hfind

/-- C2 amended witness: a compartment named Dev does not match the query dev
(case-sensitive), so resolution fails with the not-found error. -/
theorem c2_amended_witness :
    (resolveCompartmentID "dev"
        (Except.ok [[⟨"ocid1.compartment.oc1..x", "Dev"⟩]])).1
      = Except.error (ResolveErr.notFound "dev") :=
  (c2_amended "dev" [[⟨"ocid1.compartment.oc1..x", "Dev"⟩]] (by decide)).mpr (by decide)

/-- C3: with two or more matching items in the searched listing, resolution
succeeds and returns the identifier of the first match in response order,
for compartment resolution and for both the primary and fallback image
queries. -/
theorem c3_first_match :
    (∀ (input : String) (pages : List (List Compartment))
        (c c2 : Compartment) (rest : List Compartment),
        isLiteralCompartmentID input = false →
        (firstPage pages).filter (fun x => x.name == input) = c :: c2 :: rest →
        resolveCompartmentID input (Except.ok pages) = (Except.ok c.id, 1))
    ∧ (∀ (imageName compartmentID tenancyOCID : String)
        (listImages : String → Except String (List Image))
        (d d2 : Image) (rest : List Image),
        listImages compartmentID = Except.ok (d :: d2 :: rest) →
        resolveImageNameToID imageName compartmentID tenancyOCID listImages
          = (Except.ok d.id, 1))
    ∧ (∀ (imageName compartmentID tenancyOCID : String)
        (listImages : String → Except String (List Image))
        (d d2 : Image) (rest : List Image),
        listImages compartmentID = Except.ok [] →
        listImages tenancyOCID = Except.ok (d :: d2 :: rest) →
        resolveImageNameToID imageName compartmentID tenancyOCID listImages
          = (Except.ok d.id, 2)) := by
  refine ⟨?_, ?_, ?_⟩
  · intro input pages c c2 rest h hfilter
    have hfind : (firstPage pages).find? (fun x => x.name == input) = some c := by
      rw [find?_eq_filter_head, hfilter]
      rfl
    simp [resolveCompartmentID, h, hfind]
  · intro imageName compartmentID tenancyOCID listImages d d2 rest h1
    simp [resolveImageNameToID, h1]
  · intro imageName compartmentID tenancyOCID listImages d d2 rest h1 h2
    simp [resolveImageNameToID, h1, h2]

/-- C3 witness: two compartments named dup and two images named alike; the
first of each listing wins. -/
theorem c3_first_match_witness :
    resolveCompartmentID "dup"
        (Except.ok [[⟨"ocid1.compartment.oc1..1", "dup"⟩,
                     ⟨"ocid1.compartment.oc1..2", "dup"⟩]])
      = (Except.ok "ocid1.compartment.oc1..1", 1)
    ∧ resolveImageNameToID "alike" "c" "t"
        (fun _ => Except.ok [⟨"ocid1.image.oc1..1"⟩, ⟨"ocid1.image.oc1..2"⟩])
      = (Except.ok "ocid1.image.oc1..1", 1) :=
  ⟨c3_first_match.1 "dup" [[⟨"ocid1.compartment.oc1..1", "dup"⟩,
      ⟨"ocid1.compartment.oc1..2", "dup"⟩]]
      ⟨"ocid1.compartment.oc1..1", "dup"⟩ ⟨"ocid1.compartment.oc1..2", "dup"⟩ []
      (by decide) (by decide),
   c3_first_match.2.1 "alike" "c" "t"
      (fun _ => Except.ok [⟨"ocid1.image.oc1..1"⟩, ⟨"ocid1.image.oc1..2"⟩])
      ⟨"ocid1.image.oc1..1"⟩ ⟨"ocid1.image.oc1..2"⟩ [] rfl⟩

/-- C4: with an empty display-name-filtered primary listing and a non-empty
tenancy-root fallback listing, resolveImageNameToID returns the first
fallback item's identifier; and a not-found failure occurs only when both
queries returned empty. -/
theorem c4_image_fallback :
    (∀ (imageName compartmentID tenancyOCID : String)
        (listImages : String → Except String (List Image))
        (d : Image) (rest : List Image),
        listImages compartmentID = Except.ok [] →
        listImages tenancyOCID = Except.ok (d :: rest) →
        resolveImageNameToID imageName compartmentID tenancyOCID listImages
          = (Except.ok d.id, 2))
    ∧ (∀ (imageName compartmentID tenancyOCID : String)
        (listImages : String → Except String (List Image)),
        (resolveImageNameToID imageName compartmentID tenancyOCID listImages).1
            = Except.error (ResolveErr.notFound imageName) →
        listImages compartmentID = Except.ok []
          ∧ listImages tenancyOCID = Except.ok []) := by
  constructor
  · intro imageName compartmentID tenancyOCID listImages d rest h1 h2
    simp [resolveImageNameToID, h1, h2]
  · intro imageName compartmentID tenancyOCID listImages h
    unfold resolveImageNameToID at h
    rcases h1 : listImages compartmentID with e | (_ | ⟨d, l⟩)
    · simp [h1] at h
    · rcases h2 : listImages tenancyOCID with e2 | (_ | ⟨d2, l2⟩)
      · simp [h1, h2] at h
      · exact ⟨rfl, rfl⟩
      · simp [h1, h2] at h
    · simp [h1] at h

/-- C4 witness: the image is found via the tenancy-root fallback after an
empty primary listing; the not-found direction is exercised through the
primary theorem at an all-empty API. -/
theorem c4_image_fallback_witness :
    resolveImageNameToID "Ubuntu" "ocid1.compartment.oc1..c" "ocid1.tenancy.oc1..t"
        (fun q => if q == "ocid1.tenancy.oc1..t"
                  then Except.ok [⟨"ocid1.image.oc1..plat"⟩] else Except.ok [])
      = (Except.ok "ocid1.image.oc1..plat", 2)
    ∧ ((fun _ => Except.ok []) : String → Except String (List Image)) "c" = Except.ok []
      ∧ ((fun _ => Except.ok []) : String → Except String (List Image)) "t" = Except.ok [] :=
  ⟨c4_image_fallback.1 "Ubuntu" "ocid1.compartment.oc1..c" "ocid1.tenancy.oc1..t"
      (fun q => if q == "ocid1.tenancy.oc1..t"
                then Except.ok [⟨"ocid1.image.oc1..plat"⟩] else Except.ok [])
      ⟨"ocid1.image.oc1..plat"⟩ [] rfl rfl,
   c4_image_fallback.2 "Ubuntu" "c" "t" (fun _ => Except.ok []) rfl⟩

/-- C5: shape validation is existence-only — when the compatible-shape
listing succeeds, a shape name present in it yields the input name back
unchanged, and an absent shape name yields the not-found error. -/
theorem c5_shape_validation :
    ∀ (shapeName compartmentID imageID : String)
      (listShapes : String → String → Except String (List Shape))
      (items : List Shape),
      listShapes compartmentID imageID = Except.ok items →
      ((∃ s ∈ items, s.shape = some shapeName) →
          resolveShapeNameToID shapeName compartmentID imageID listShapes
            = (Except.ok shapeName, 1))
      ∧ ((∀ s ∈ items, ¬ s.shape = some shapeName) →
          resolveShapeNameToID shapeName compartmentID imageID listShapes
            = (Except.error (ResolveErr.notFound shapeName), 1)) := by
  intro shapeName compartmentID imageID listShapes items h
  constructor
  · intro hex
    obtain ⟨s, hmem, hs⟩ := hex
    have hsome : ∃ v, items.find? (fun s => s.shape == some shapeName) = some v := by
      rw [Option.isSome_iff_exists.symm, List.find?_isSome]
      exact ⟨s, hmem, by simp [hs]⟩
    obtain ⟨v, hv⟩ := hsome
    simp [resolveShapeNameToID, h, hv]
  · intro hall
    have hnone : items.find? (fun s => s.shape == some shapeName) = none := by
      rw [List.find?_eq_none]
      intro x hx
      simp [hall x hx]
    simp [resolveShapeNameToID, h, hnone]

/-- C5 witness: the flexible shape is present in the compatible listing and
validates to itself; a missing shape name fails with the not-found error. -/
theorem c5_shape_validation_witness :
    resolveShapeNameToID "VM.Standard.A1.Flex" "c" "i"
        (fun _ _ => Except.ok [⟨some "VM.Standard.E2.1"⟩, ⟨some "VM.Standard.A1.Flex"⟩])
      = (Except.ok "VM.Standard.A1.Flex", 1)
    ∧ resolveShapeNameToID "VM.DenseIO2.8" "c" "i"
        (fun _ _ => Except.ok [⟨some "VM.Standard.E2.1"⟩, ⟨none⟩])
      = (Except.error (ResolveErr.notFound "VM.DenseIO2.8"), 1) :=
  ⟨(c5_shape_validation "VM.Standard.A1.Flex" "c" "i"
      (fun _ _ => Except.ok [⟨some "VM.Standard.E2.1"⟩, ⟨some "VM.Standard.A1.Flex"⟩])
      [⟨some "VM.Standard.E2.1"⟩, ⟨some "VM.Standard.A1.Flex"⟩] rfl).1 (by decide),
   (c5_shape_validation "VM.DenseIO2.8" "c" "i"
      (fun _ _ => Except.ok [⟨some "VM.Standard.E2.1"⟩, ⟨none⟩])
      [⟨some "VM.Standard.E2.1"⟩, ⟨none⟩] rfl).2 (by decide)⟩

/-- C10: literal detection is prefix-specific — inputs with one of the two
exact prefixes pass through with no listing request, while every other input
(including one with the prefix ocid1.compartment.oc2.) triggers exactly one
listing request and fails with the not-found error when no compartment in
the scanned listing bears that name. -/
theorem c10_prefix_specific :
    (∀ (input : String) (listing : Except String (List (List Compartment))),
        isLiteralCompartmentID input = true →
        resolveCompartmentID input listing = (Except.ok input, 0))
    ∧ (∀ (input : String) (listing : Except String (List (List Compartment))),
        isLiteralCompartmentID input = false →
        (resolveCompartmentID input listing).2 = 1)
    ∧ (∀ (input : String) (pages : List (List Compartment)),
        isLiteralCompartmentID input = false →
        (∀ c ∈ firstPage pages, ¬ c.name = input) →
        resolveCompartmentID input (Except.ok pages)
          = (Except.error (ResolveErr.notFound input), 1))
    ∧ isLiteralCompartmentID "ocid1.compartment.oc2..realm2" = false := by
  refine ⟨?_, ?_, ?_, by decide⟩
  · intro input listing h
    simp [resolveCompartmentID, h]
  · intro input listing h
    unfold resolveCompartmentID
    rcases listing with e | pages
    · simp [h]
    · simp only [h, Bool.false_eq_true, if_false]
      cases (firstPage pages).find? (fun c => c.name == input) <;> simp
  · intro input pages h hall
    have hnone : (firstPage pages).find? (fun c => c.name == input) = none := by
      rw [List.find?_eq_none]
      intro x hx
      simp [hall x hx]
    simp [resolveCompartmentID, h, hnone]

/-- C10 witness: a first-realm literal passes through untouched, while an
OCID of another realm is looked up over the network and misses. -/
theorem c10_prefix_specific_witness :
    resolveCompartmentID "ocid1.compartment.oc1..k" (Except.error "down")
      = (Except.ok "ocid1.compartment.oc1..k", 0)
    ∧ resolveCompartmentID "ocid1.compartment.oc2..realm2"
        (Except.ok [[⟨"ocid1.compartment.oc1..x", "prod"⟩]])
      = (Except.error (ResolveErr.notFound "ocid1.compartment.oc2..realm2"), 1) :=
  ⟨c10_prefix_specific.1 "ocid1.compartment.oc1..k" (Except.error "down") (by decide),
   c10_prefix_specific.2.2.1 "ocid1.compartment.oc2..realm2"
      [[⟨"ocid1.compartment.oc1..x", "prod"⟩]] (by decide) (by decide)⟩

/-- Whitespace test of Go strings.TrimSpace for the characters relevant
here. -/
def isSpaceChar (c : Char) : Bool :=
  c = ' ' || c = '\t' || c = '\n' || c = '\r'

/-- Go strings.TrimSpace rendered over character lists: leading and trailing
whitespace removed. -/
def trimChars (l : List Char) : List Char :=
  ((l.dropWhile isSpaceChar).reverse.dropWhile isSpaceChar).reverse

/-- Go strings.Split with separator comma, rendered over character lists: it
always yields at least one (possibly empty) entry. -/
def splitComma : List Char → List (List Char)
  | [] => [[]]
  | c :: cs =>
    if c = ',' then [] :: splitComma cs
    else
      match splitComma cs with
      | g :: gs => (c :: g) :: gs
      | [] => [[c]]

/-- SSH key loop of createCmd (source lines 161-171), with the running index
made explicit: n is the total number of entries and i the index of the entry
at the head of the remaining list. A non-empty trimmed entry is appended,
followed by a newline whenever its index is not the last one. -/
def buildKeysFrom (n : Nat) : Nat → List (List Char) → List Char
  | _, [] => []
  | i, k :: rest =>
    let t := trimChars k
    (if t = [] then [] else t ++ (if i < n - 1 then ['\n'] else []))
      ++ buildKeysFrom n (i + 1) rest

/-- Embedding of the ssh_authorized_keys string construction of createCmd
(source lines 160-171): split on commas, trim each entry, concatenate the
non-empty ones with the index-based newline rule. -/
def buildKeys (entries : List (List Char)) : List Char :=
  buildKeysFrom entries.length 0 entries

/-- Trimmed non-empty entries, in order. -/
def keptKeys (entries : List (List Char)) : List (List Char) :=
  (entries.map trimChars).filter (fun t => ¬ t.isEmpty)

example : buildKeys (splitComma "a, b".data) = "a\nb".data := rfl

example : buildKeys (splitComma "a,,".data) = "a\n".data := rfl

example : buildKeys (splitComma " ,a,b".data) = "a\nb".data := rfl

/-- Errors of the createCmd orchestration, tagged with the step that raised
them; noValidKeys is the step-8 failure for an empty packed key string. -/
inductive CreateErr where
  | resolveCompartment (e : ResolveErr)
  | resolveImage (e : ResolveErr)
  | validateShape (e : ResolveErr)
  | noValidKeys
deriving DecidableEq, Repr

/-- Launch request fields assembled by createCmd that the claims mention. -/
structure LaunchReq where
  compartmentId : String
  imageId : String
  shape : String
  displayName : String
  sshAuthorizedKeys : List Char
deriving DecidableEq, Repr

/-- Step 4 of createCmd (source lines 120-132): resolve the compartment flag
when present, defaulting to the tenancy root, and tag any failure. -/
def compartmentStep (compartmentInput tenancy : String)
    (listing : Except String (List (List Compartment))) :
    Except CreateErr String × Nat :=
  if compartmentInput == "" then (Except.ok tenancy, 0)
  else
    match resolveCompartmentID compartmentInput listing with
    | (Except.error e, n) => (Except.error (CreateErr.resolveCompartment e), n)
    | (Except.ok cid, n) => (Except.ok cid, n)

/-- Embedding of the createCmd run function (source lines 93-225), from flag
retrieval to the launch submission. Steps in source order: resolve the
compartment (tenancy root when the flag is empty), resolve the image with
tenancy fallback, validate the shape, pick the display name (autoName stands
for the timestamped default), build the ssh_authorized_keys value and fail
when it is empty, then submit the launch. The second component counts network
calls issued: every listing request of the resolution and validation steps,
plus the final LaunchInstance call on success. Flex shape-config sizing is
not modelled; no claim mentions it. -/
def createCmd (compartmentInput imageName shapeName publicKeys nameFlag autoName
    tenancy : String)
    (listing : Except String (List (List Compartment)))
    (listImages : String → Except String (List Image))
    (listShapes : String → String → Except String (List Shape)) :
    Except CreateErr LaunchReq × Nat :=
  match compartmentStep compartmentInput tenancy listing with
  | (Except.error e, n1) => (Except.error e, n1)
  | (Except.ok cid, n1) =>
    match resolveImageNameToID imageName cid tenancy listImages with
    | (Except.error e, n2) => (Except.error (CreateErr.resolveImage e), n1 + n2)
    | (Except.ok imageId, n2) =>
      match resolveShapeNameToID shapeName cid imageId listShapes with
      | (Except.error e, n3) => (Except.error (CreateErr.validateShape e), n1 + n2 + n3)
      | (Except.ok _, n3) =>
        let displayName := if nameFlag == "" then autoName else nameFlag
        let ssh := buildKeys (splitComma publicKeys.data)
        if ssh.isEmpty then
          (Except.error CreateErr.noValidKeys, n1 + n2 + n3)
        else
          (Except.ok ⟨cid, imageId, shapeName, displayName, ssh⟩, n1 + n2 + n3 + 1)

/-- Newline join modelled from the spec sentence for C9: entries in order,
exactly one newline between consecutive entries, no leading or trailing
newline. -/
def joinNL : List (List Char) → List Char
  | [] => []
  | [k] => k
  | k :: k2 :: rest => k ++ ['\n'] ++ joinNL (k2 :: rest)

/-- Modelled from the spec sentence for C9: the trimmed non-empty entries,
in order, joined by exactly one newline. -/
def joinKeysSpec (entries : List (List Char)) : List Char :=
  joinNL (keptKeys entries)

/-- Test whether the final raw entry trims to the empty string. -/
def lastEntryTrimsEmpty : List (List Char) → Bool
  | [] => false
  | [k] => (trimChars k).isEmpty
  | _ :: k2 :: rest => lastEntryTrimsEmpty (k2 :: rest)

/-- Index-free rendering of the key loop: only the last entry omits the
newline after a kept key. -/
def buildKeysAux : List (List Char) → List Char
  | [] => []
  | [k] => trimChars k
  | k :: k2 :: rest =>
    (if trimChars k = [] then [] else trimChars k ++ ['\n']) ++ buildKeysAux (k2 :: rest)

theorem keptKeys_cons (k : List Char) (l : List (List Char)) :
    keptKeys (k :: l)
      = if trimChars k = [] then keptKeys l else trimChars k :: keptKeys l := by
  by_cases h : trimChars k = []
  · simp [keptKeys, h]
  · simp [keptKeys, h, List.isEmpty_iff]

theorem keptKeys_nil_last_trims :
    ∀ l : List (List Char), keptKeys l = [] → l ≠ [] → lastEntryTrimsEmpty l = true := by
  intro l
  induction l with
  | nil => intro _ h; exact absurd rfl h
  | cons k rest ih =>
    intro hkept _
    rw [keptKeys_cons] at hkept
    by_cases ht : trimChars k = []
    · simp only [ht, if_true] at hkept
      cases rest with
      | nil => simp [lastEntryTrimsEmpty, ht, List.isEmpty_iff]
      | cons k2 rest2 =>
        simp only [lastEntryTrimsEmpty]
        exact ih hkept (by simp)
    · simp [ht] at hkept

theorem buildKeysFrom_eq_aux :
    ∀ (l : List (List Char)) (n i : Nat), i + l.length = n →
      buildKeysFrom n i l = buildKeysAux l := by
  intro l
  induction l with
  | nil => intro n i _; rfl
  | cons k rest ih =>
    intro n i h
    cases rest with
    | nil =>
      have hlt : ¬ i < n - 1 := by simp at h; omega
      simp only [buildKeysFrom, buildKeysAux, hlt, if_false, List.append_nil]
      by_cases ht : trimChars k = [] <;> simp [ht]
    | cons k2 rest2 =>
      have hlt : i < n - 1 := by simp at h; omega
      have hrec := ih n (i + 1) (by simp at h ⊢; omega)
      have hunf : buildKeysFrom n i (k :: k2 :: rest2)
          = (if trimChars k = [] then []
             else trimChars k ++ (if i < n - 1 then ['\n'] else []))
            ++ buildKeysFrom n (i + 1) (k2 :: rest2) := rfl
      rw [hunf, hrec, if_pos hlt]
      rfl

theorem buildKeysAux_formula :
    ∀ entries : List (List Char),
      buildKeysAux entries
        = joinNL (keptKeys entries)
          ++ (if lastEntryTrimsEmpty entries = true ∧ ¬ keptKeys entries = []
              then ['\n'] else []) := by
  intro entries
  induction entries with
  | nil => simp [buildKeysAux, keptKeys, joinNL, lastEntryTrimsEmpty]
  | cons k rest ih =>
    cases rest with
    | nil =>
      have hone : buildKeysAux [k] = trimChars k := rfl
      have hlast : lastEntryTrimsEmpty [k] = (trimChars k).isEmpty := rfl
      by_cases ht : trimChars k = []
      · have hkept : keptKeys [k] = [] := by simp [keptKeys, ht]
        rw [hone, ht, hkept, hlast, ht]
        simp [joinNL]
      · have hkept : keptKeys [k] = [trimChars k] := by
          simp [keptKeys, List.isEmpty_iff, ht]
        rw [hone, hkept, hlast]
        simp [joinNL, List.isEmpty_iff, ht]
    | cons k2 rest2 =>
      have hunf : buildKeysAux (k :: k2 :: rest2)
          = (if trimChars k = [] then [] else trimChars k ++ ['\n'])
            ++ buildKeysAux (k2 :: rest2) := rfl
      have hlaststep : lastEntryTrimsEmpty (k :: k2 :: rest2)
          = lastEntryTrimsEmpty (k2 :: rest2) := rfl
      by_cases ht : trimChars k = []
      · have hk : keptKeys (k :: k2 :: rest2) = keptKeys (k2 :: rest2) := by
          rw [keptKeys_cons, if_pos ht]
        rw [hunf, if_pos ht, List.nil_append, ih, hk, hlaststep]
      · have hk : keptKeys (k :: k2 :: rest2)
            = trimChars k :: keptKeys (k2 :: rest2) := by
          rw [keptKeys_cons, if_neg ht]
        rw [hunf, if_neg ht, ih, hk, hlaststep]
        cases hkept : keptKeys (k2 :: rest2) with
        | nil =>
          have hlast : lastEntryTrimsEmpty (k2 :: rest2) = true :=
            keptKeys_nil_last_trims (k2 :: rest2) hkept (by simp)
          simp [joinNL, hlast]
        | cons x xs =>
          have hjoin : joinNL (trimChars k :: x :: xs)
              = trimChars k ++ ['\n'] ++ joinNL (x :: xs) := rfl
          rw [hjoin]
          by_cases hl : lastEntryTrimsEmpty (k2 :: rest2) = true
          · simp [hl, List.append_assoc]
          · simp [hl, List.append_assoc]

/-- C9 counterexample: for the value a,, the code produces the metadata
string with a trailing newline, which differs from the newline join of the
trimmed non-empty entries. -/
theorem c9_counterexample :
    buildKeys (splitComma ("a,,").data) = ['a', '\n']
    ∧ joinKeysSpec (splitComma ("a,,").data) = ['a']
    ∧ (['a', '\n'] : List Char) ≠ ['a'] :=
  ⟨rfl, rfl, by decide⟩

/-- C9 amended: the ssh_authorized_keys value equals the trimmed non-empty
comma-separated entries, in order, joined by exactly one newline between
consecutive keys with no leading newline, plus one trailing newline exactly
when at least one key is kept and the final raw entry trims to empty. -/
theorem c9_amended :
    ∀ s : String,
      buildKeys (splitComma s.data)
        = joinKeysSpec (splitComma s.data)
          ++ (if lastEntryTrimsEmpty (splitComma s.data) = true
                ∧ ¬ keptKeys (splitComma s.data) = []
              then ['\n'] else []) := by
  intro s
  rw [buildKeys, buildKeysFrom_eq_aux (splitComma s.data) (splitComma s.data).length 0
    (by omega)]
  rw [joinKeysSpec]
  exact buildKeysAux_formula (splitComma s.data)

theorem buildKeysFrom_nil_of_all_trim_nil :
    ∀ (l : List (List Char)) (n i : Nat),
      (∀ k ∈ l, trimChars k = []) → buildKeysFrom n i l = [] := by
  intro l
  induction l with
  | nil => intro n i _; rfl
  | cons k rest ih =>
    intro n i h
    have hk : trimChars k = [] := h k (by simp)
    simp only [buildKeysFrom, hk, if_true, List.nil_append]
    exact ih n (i + 1) (fun x hx => h x (by simp [hx]))

/-- C6 counterexample: with a whitespace-only public-keys value but a literal
compartment, a resolvable image, and a valid shape, createCmd fails with the
no-valid-keys error only after two listing network calls were issued. -/
theorem c6_counterexample :
    createCmd "ocid1.compartment.oc1..c" "Ubuntu" "VM.Standard.A1.Flex" " , " ""
        "instance-20251011" "ocid1.tenancy.oc1..t"
        (Except.ok [])
        (fun _ => Except.ok [⟨"ocid1.image.oc1..i"⟩])
        (fun _ _ => Except.ok [⟨some "VM.Standard.A1.Flex"⟩])
      = (Except.error CreateErr.noValidKeys, 2)
    ∧ ((Except.error CreateErr.noValidKeys, 2) : Except CreateErr LaunchReq × Nat).2 ≠ 0 :=
  ⟨rfl, by decide⟩

/-- C6 amended: whenever every comma-separated public-keys entry trims to
empty, createCmd fails — the launch request is never submitted — though the
resolution and validation listing calls that precede the key check may
already have been issued. -/
theorem c6_amended :
    ∀ (compartmentInput imageName shapeName publicKeys nameFlag autoName tenancy : String)
      (listing : Except String (List (List Compartment)))
      (listImages : String → Except String (List Image))
      (listShapes : String → String → Except String (List Shape)),
      (∀ k ∈ splitComma publicKeys.data, trimChars k = []) →
      ∃ e, (createCmd compartmentInput imageName shapeName publicKeys nameFlag autoName
              tenancy listing listImages listShapes).1 = Except.error e := by
  intro compartmentInput imageName shapeName publicKeys nameFlag autoName tenancy
    listing listImages listShapes h
  have hssh : buildKeys (splitComma publicKeys.data) = [] :=
    buildKeysFrom_nil_of_all_trim_nil _ _ _ h
  unfold createCmd
  rcases hstep : compartmentStep compartmentInput tenancy listing with ⟨r4, n1⟩
  cases r4 with
  | error e => exact ⟨e, by simp [hstep]⟩
  | ok cid =>
    rcases himg : resolveImageNameToID imageName cid tenancy listImages with ⟨ri, n2⟩
    cases ri with
    | error e => exact ⟨CreateErr.resolveImage e, by simp [hstep, himg]⟩
    | ok imageId =>
      rcases hshape : resolveShapeNameToID shapeName cid imageId listShapes with ⟨rs, n3⟩
      cases rs with
      | error e => exact ⟨CreateErr.validateShape e, by simp [hstep, himg, hshape]⟩
      | ok _ =>
        exact ⟨CreateErr.noValidKeys, by simp [hstep, himg, hshape, hssh]⟩

/-- C6 amended witness: a whitespace-only key value makes createCmd fail at
concrete inputs. -/
theorem c6_amended_witness :
    ∃ e, (createCmd "" "Ubuntu" "VM.Standard.A1.Flex" " , " "" "auto"
            "ocid1.tenancy.oc1..t" (Except.ok [])
            (fun _ => Except.ok [⟨"ocid1.image.oc1..i"⟩])
            (fun _ _ => Except.ok [⟨some "VM.Standard.A1.Flex"⟩])).1 = Except.error e :=
  c6_amended "" "Ubuntu" "VM.Standard.A1.Flex" " , " "" "auto" "ocid1.tenancy.oc1..t"
    (Except.ok []) (fun _ => Except.ok [⟨"ocid1.image.oc1..i"⟩])
    (fun _ _ => Except.ok [⟨some "VM.Standard.A1.Flex"⟩]) (by decide)

/-- Mocked remote compartment data for the walk, pagination included: each
node is a compartment whose child listing is served as a list of pages, in
server order; the compartment walk requests them one by one through the
continuation token. -/
inductive PagedTree where
  | node (c : Compartment) (pages : List (List PagedTree))
deriving Repr

mutual

/-- Visit sequence that listCompartmentsRecursive (source lines 608-639)
produces for one compartment: the compartment is printed at its depth, then
its own scope is walked at depth plus one (the subRequest recursion of
lines 620-628). -/
def walkTree : PagedTree → Nat → List (Compartment × Nat)
  | PagedTree.node c pages, depth => (c, depth) :: walkScope pages (depth + 1)
termination_by t _ => sizeOf t

/-- Visit sequence for one scope: each page's items are handled in full —
including their sub-scopes — before the OpcNextPage recursion (source lines
632-636) requests the next page of the same scope at the same depth. -/
def walkScope : List (List PagedTree) → Nat → List (Compartment × Nat)
  | [], _ => []
  | page :: rest, depth => walkForest page depth ++ walkScope rest depth
termination_by l _ => sizeOf l

/-- Visit sequence for the items of one page, in response order (the loop of
source lines 615-629). -/
def walkForest : List PagedTree → Nat → List (Compartment × Nat)
  | [], _ => []
  | t :: ts, depth => walkTree t depth ++ walkForest ts depth
termination_by l _ => sizeOf l

end

/-- Abstract compartment tree, with pagination forgotten. -/
inductive RoseTree where
  | node (c : Compartment) (children : List RoseTree)
deriving Repr

mutual

/-- Modelled from the spec contract for C7: depth-first pre-order visit of
an abstract compartment tree — the node first, then its children in order,
one level deeper. -/
def preorder : RoseTree → Nat → List (Compartment × Nat)
  | RoseTree.node c children, depth => (c, depth) :: preorderF children (depth + 1)
termination_by t _ => sizeOf t

/-- Depth-first pre-order visit of a forest, left to right. -/
def preorderF : List RoseTree → Nat → List (Compartment × Nat)
  | [], _ => []
  | t :: ts, depth => preorder t depth ++ preorderF ts depth
termination_by l _ => sizeOf l

end

mutual

/-- Abstract tree of a paged tree: each scope's listing is the concatenation
of its pages in server-returned order. -/
def depage : PagedTree → RoseTree
  | PagedTree.node c pages => RoseTree.node c (depageScope pages)
termination_by t => sizeOf t

/-- Concatenation of the depaged items of all pages of a scope. -/
def depageScope : List (List PagedTree) → List RoseTree
  | [] => []
  | page :: rest => depageForest page ++ depageScope rest
termination_by l => sizeOf l

/-- Depaged items of one page. -/
def depageForest : List PagedTree → List RoseTree
  | [] => []
  | t :: ts => depage t :: depageForest ts
termination_by l => sizeOf l

end

mutual

/-- Number of nodes of a tree carrying a given compartment value. -/
def occCount (c : Compartment) : RoseTree → Nat
  | RoseTree.node c2 children => (if c2 = c then 1 else 0) + occForest c children
termination_by t => sizeOf t

/-- Number of nodes of a forest carrying a given compartment value. -/
def occForest (c : Compartment) : List RoseTree → Nat
  | [] => 0
  | t :: ts => occCount c t + occForest c ts
termination_by l => sizeOf l

end

theorem preorderF_append (ts1 ts2 : List RoseTree) (depth : Nat) :
    preorderF (ts1 ++ ts2) depth = preorderF ts1 depth ++ preorderF ts2 depth := by
  induction ts1 with
  | nil => simp [preorderF]
  | cons t ts ih => simp [preorderF, ih]

mutual

theorem walkTree_eq_preorder : ∀ (t : PagedTree) (depth : Nat),
    walkTree t depth = preorder (depage t) depth
  | PagedTree.node c pages, depth => by
    rw [walkTree, depage, preorder]
    exact congrArg _ (walkScope_eq_preorder pages (depth + 1))
termination_by t _ => sizeOf t

theorem walkScope_eq_preorder : ∀ (pages : List (List PagedTree)) (depth : Nat),
    walkScope pages depth = preorderF (depageScope pages) depth
  | [], depth => by rw [walkScope, depageScope, preorderF]
  | page :: rest, depth => by
    rw [walkScope, depageScope, preorderF_append,
      walkForest_eq_preorder page depth, walkScope_eq_preorder rest depth]
termination_by l _ => sizeOf l

theorem walkForest_eq_preorder : ∀ (ts : List PagedTree) (depth : Nat),
    walkForest ts depth = preorderF (depageForest ts) depth
  | [], depth => by rw [walkForest, depageForest, preorderF]
  | t :: ts, depth => by
    rw [walkForest, depageForest, preorderF,
      walkTree_eq_preorder t depth, walkForest_eq_preorder ts depth]
termination_by l _ => sizeOf l

end

mutual

theorem preorder_count (c : Compartment) : ∀ (t : RoseTree) (depth : Nat),
    ((preorder t depth).map Prod.fst).count c = occCount c t
  | RoseTree.node c2 children, depth => by
    rw [preorder, occCount]
    simp only [List.map_cons, List.count_cons, preorder_countF c children (depth + 1),
      beq_iff_eq]
    by_cases h : c2 = c
    · simp [h]
      omega
    · simp [h]
termination_by t _ => sizeOf t

theorem preorder_countF (c : Compartment) : ∀ (ts : List RoseTree) (depth : Nat),
    ((preorderF ts depth).map Prod.fst).count c = occForest c ts
  | [], depth => by rw [preorderF, occForest]; rfl
  | t :: ts, depth => by
    rw [preorderF, occForest]
    simp only [List.map_append, List.count_append,
      preorder_count c t depth, preorder_countF c ts depth]
termination_by l _ => sizeOf l

end

/-- C7: on any mocked paged compartment tree, the walk visits exactly the
depth-first pre-order of the abstract tree obtained by concatenating every
scope's pages — so every compartment in the mocked data is visited, each as
many times as it occurs in the tree (exactly once when unique), regardless
of how listings are split across pages. -/
theorem c7_walk_is_preorder :
    (∀ (pages : List (List PagedTree)) (depth : Nat),
        walkScope pages depth = preorderF (depageScope pages) depth)
    ∧ (∀ (c : Compartment) (pages : List (List PagedTree)) (depth : Nat),
        ((walkScope pages depth).map Prod.fst).count c = occForest c (depageScope pages)) :=
  ⟨walkScope_eq_preorder, fun c pages depth => by
    rw [walkScope_eq_preorder pages depth, preorder_countF c (depageScope pages) depth]⟩

/-- Mocked remote compartment data in which any page request may fail: an
error entry stands for the ListCompartments call for that page returning an
error. -/
inductive ETree where
  | node (c : Compartment) (pages : List (Except String (List ETree)))
deriving Repr

mutual

/-- Compartment visit with failure, for one node: the compartment is printed
before its sub-scope is walked, so its visit survives a later failure; the
sub-scope result and error are passed through. -/
def runTree : ETree → Nat → List (Compartment × Nat) × Option String
  | ETree.node c pages, depth =>
    match runScope pages (depth + 1) with
    | (v, r) => ((c, depth) :: v, r)
termination_by t _ => sizeOf t

/-- Scope walk with failure (source lines 608-639): a failed page request
returns the error at once — nothing of that page or of any later page of the
scope is visited; otherwise the page's items are handled and, on success,
the next page of the same scope follows. -/
def runScope : List (Except String (List ETree)) → Nat → List (Compartment × Nat) × Option String
  | [], _ => ([], none)
  | Except.error e :: _, _ => ([], some e)
  | Except.ok page :: rest, depth =>
    match runForest page depth with
    | (v, some e) => (v, some e)
    | (v, none) =>
      match runScope rest depth with
      | (v2, r) => (v ++ v2, r)
termination_by l _ => sizeOf l

/-- Page-item walk with failure: a failing sub-walk stops the loop (source
lines 624-627 return the error), so later siblings are not visited. -/
def runForest : List ETree → Nat → List (Compartment × Nat) × Option String
  | [], _ => ([], none)
  | t :: ts, depth =>
    match runTree t depth with
    | (v, some e) => (v, some e)
    | (v, none) =>
      match runForest ts depth with
      | (v2, r) => (v ++ v2, r)
termination_by l _ => sizeOf l

end

mutual

/-- Absence of failing page requests anywhere in a scope. -/
def errFreeScope : List (Except String (List ETree)) → Bool
  | [] => true
  | Except.error _ :: _ => false
  | Except.ok page :: rest => errFreeForest page && errFreeScope rest
termination_by l => sizeOf l

/-- Absence of failing page requests anywhere under the items of a page. -/
def errFreeForest : List ETree → Bool
  | [] => true
  | t :: ts => errFreeTree t && errFreeForest ts
termination_by l => sizeOf l

/-- Absence of failing page requests anywhere under a node. -/
def errFreeTree : ETree → Bool
  | ETree.node _ pages => errFreeScope pages
termination_by t => sizeOf t

end

mutual

theorem runScope_none_iff : ∀ (pages : List (Except String (List ETree))) (depth : Nat),
    (runScope pages depth).2 = none ↔ errFreeScope pages = true
  | [], depth => by rw [runScope, errFreeScope]; simp
  | Except.error e :: rest, depth => by rw [runScope, errFreeScope]; simp
  | Except.ok page :: rest, depth => by
    rw [runScope, errFreeScope]
    rcases hf : runForest page depth with ⟨v, r⟩
    cases r with
    | some e =>
      have hne := runForest_none_iff page depth
      rw [hf] at hne
      simp only [Bool.and_eq_true]
      simp at hne
      simp [hne]
    | none =>
      have hfe := runForest_none_iff page depth
      rw [hf] at hfe
      simp at hfe
      rcases hs : runScope rest depth with ⟨v2, r2⟩
      have hse := runScope_none_iff rest depth
      rw [hs] at hse
      simp only [Bool.and_eq_true, hfe]
      simpa using hse
termination_by l _ => sizeOf l

theorem runForest_none_iff : ∀ (ts : List ETree) (depth : Nat),
    (runForest ts depth).2 = none ↔ errFreeForest ts = true
  | [], depth => by rw [runForest, errFreeForest]; simp
  | t :: ts, depth => by
    rw [runForest, errFreeForest]
    rcases ht : runTree t depth with ⟨v, r⟩
    cases r with
    | some e =>
      have hne := runTree_none_iff t depth
      rw [ht] at hne
      simp only [Bool.and_eq_true]
      simp at hne
      simp [hne]
    | none =>
      have hte := runTree_none_iff t depth
      rw [ht] at hte
      simp at hte
      rcases hs : runForest ts depth with ⟨v2, r2⟩
      have hse := runForest_none_iff ts depth
      rw [hs] at hse
      simp only [Bool.and_eq_true, hte]
      simpa using hse
termination_by l _ => sizeOf l

theorem runTree_none_iff : ∀ (t : ETree) (depth : Nat),
    (runTree t depth).2 = none ↔ errFreeTree t = true
  | ETree.node c pages, depth => by
    rw [runTree, errFreeTree]
    rcases hs : runScope pages (depth + 1) with ⟨v, r⟩
    have hse := runScope_none_iff pages (depth + 1)
    rw [hs] at hse
    simpa using hse
termination_by t _ => sizeOf t

end

/-- C8: error propagation of the compartment walk — the walk returns no
error exactly when no page request anywhere in the mocked data fails; a
failing page request yields its error at once with no visit from that page
or any later page of the scope; an error inside a page aborts before the
remaining pages of the scope are requested; and an error inside one item
aborts before its later siblings are visited. -/
theorem c8_error_abort :
    (∀ (pages : List (Except String (List ETree))) (depth : Nat),
        (runScope pages depth).2 = none ↔ errFreeScope pages = true)
    ∧ (∀ (e : String) (rest : List (Except String (List ETree))) (depth : Nat),
        runScope (Except.error e :: rest) depth = ([], some e))
    ∧ (∀ (page : List ETree) (rest : List (Except String (List ETree))) (depth : Nat)
        (v : List (Compartment × Nat)) (e : String),
        runForest page depth = (v, some e) →
        runScope (Except.ok page :: rest) depth = (v, some e))
    ∧ (∀ (t : ETree) (ts : List ETree) (depth : Nat)
        (v : List (Compartment × Nat)) (e : String),
        runTree t depth = (v, some e) →
        runForest (t :: ts) depth = (v, some e)) := by
  refine ⟨runScope_none_iff, ?_, ?_, ?_⟩
  · intro e rest depth
    rw [runScope]
  · intro page rest depth v e h
    rw [runScope, h]
  · intro t ts depth v e h
    rw [runForest, h]

/-- C8 witness: a failing first-page request visits nothing; a failure in a
sub-scope keeps the parent visit, drops the never-requested second page, and
surfaces the sub-scope error; a failing first sibling hides the second. -/
theorem c8_error_abort_witness :
    runScope [Except.error "boom",
        Except.ok [ETree.node ⟨"ocid1.compartment.oc1..z", "zed"⟩ []]] 0
      = ([], some "boom")
    ∧ runScope [Except.ok [ETree.node ⟨"ocid1.compartment.oc1..a", "apps"⟩
          [Except.error "sub"]],
        Except.error "never"] 0
      = ([(⟨"ocid1.compartment.oc1..a", "apps"⟩, 0)], some "sub")
    ∧ runForest [ETree.node ⟨"ocid1.compartment.oc1..a", "apps"⟩ [Except.error "sub"],
        ETree.node ⟨"ocid1.compartment.oc1..b", "bee"⟩ []] 0
      = ([(⟨"ocid1.compartment.oc1..a", "apps"⟩, 0)], some "sub") :=
  ⟨c8_error_abort.2.1 "boom" [Except.ok [ETree.node ⟨"ocid1.compartment.oc1..z", "zed"⟩ []]] 0,
   c8_error_abort.2.2.1 [ETree.node ⟨"ocid1.compartment.oc1..a", "apps"⟩ [Except.error "sub"]]
     [Except.error "never"] 0 [(⟨"ocid1.compartment.oc1..a", "apps"⟩, 0)] "sub"
     (by rw [runForest, runTree, runScope]),
   c8_error_abort.2.2.2 (ETree.node ⟨"ocid1.compartment.oc1..a", "apps"⟩ [Except.error "sub"])
     [ETree.node ⟨"ocid1.compartment.oc1..b", "bee"⟩ []] 0
     [(⟨"ocid1.compartment.oc1..a", "apps"⟩, 0)] "sub"
     (by rw [runTree, runScope])⟩

end OciCli
